import Mathlib

/-!
Shallow embedding of `src/main.rs` of the keepass-cli repository.

The program is an interactive browser over a decrypted KeePass tree:
a breadcrumb-stack navigation loop (`prompt`), an entry formatter
(`print_entry`), a title search (`search_entry_by_title`) and a thin
dispatcher (`main`).  Machine-level details that the claims do not touch
(ANSI styling wrappers, terminal clearing) are abstracted to the plain
text they produce; a Rust `unwrap` panic is modelled as `Option.none`.
-/

namespace KpCli

/-- An entry of the KeePass tree: a mapping from field names to string
values, modelled as an association list (first binding wins, as in a map). -/
structure Entry where
  fields : List (String × String)
deriving DecidableEq, Repr

/-- Field lookup, the model of the keepass crate's `Entry::get`: returns
`none` when the field is absent (absence is a valid result at this layer). -/
def Entry.get (e : Entry) (key : String) : Option String :=
  (e.fields.find? (fun kv => kv.1 == key)).map (fun kv => kv.2)

/-- `Entry::get_title` of the keepass crate: `self.get("Title")`. -/
def Entry.get_title (e : Entry) : Option String := e.get "Title"

/-- `Entry::get_username` of the keepass crate: `self.get("UserName")`. -/
def Entry.get_username (e : Entry) : Option String := e.get "UserName"

/-- `Entry::get_password` of the keepass crate: `self.get("Password")`. -/
def Entry.get_password (e : Entry) : Option String := e.get "Password"

/-- A node of the tree: either a sub-group (name plus ordered children)
or a leaf entry — the keepass crate's `Node` enum with the `Group` payload
inlined. -/
inductive Node where
  | group (name : String) (children : List Node)
  | entry (e : Entry)

/-- The keepass crate's `Group`: a display name and an ordered list of
child nodes (order is selection-index-significant). -/
structure Group where
  name : String
  children : List Node

/-- View a group as a tree node. -/
def Group.toNode (g : Group) : Node := Node.group g.name g.children

mutual

/-- Modelled from the spec: the tree iterator used by
`search_entry_by_title` (`for node in root_node`) lives in the external
keepass crate, not in this repository's sources.  Per the spec it
"traverses the full tree reachable from `root` (depth-first,
order = child order, descending into every sub-group regardless of
depth)"; the iterator yields the root node itself first. -/
def dfsNode : Node → List Node
  | Node.group n cs => Node.group n cs :: dfsList cs
  | Node.entry e => [Node.entry e]

/-- Depth-first listing of a forest, children in stored order. -/
def dfsList : List Node → List Node
  | [] => []
  | c :: cs => dfsNode c ++ dfsList cs

end

/-- The entries reachable from a group, in depth-first traversal order. -/
def entriesOf (root : Group) : List Entry :=
  (dfsNode root.toNode).filterMap (fun n =>
    match n with
    | Node.entry e => some e
    | Node.group _ _ => none)

/-- The loop body of `search_entry_by_title`: for each traversed node, if
it is an entry, `e.get_title().unwrap() == title` decides whether it is
pushed onto the result; a missing title makes the `unwrap` panic (`none`). -/
def searchLoop (title : String) : List Node → List Entry → Option (List Entry)
  | [], acc => some acc
  | Node.group _ _ :: ns, acc => searchLoop title ns acc
  | Node.entry e :: ns, acc =>
    match e.get_title with
    | none => none
    | some t => searchLoop title ns (if t == title then acc ++ [e] else acc)

/-- `search_entry_by_title` of `main.rs`: iterate depth-first over the
tree, collect the entries whose title equals `title` exactly. -/
def search_entry_by_title (title : String) (root : Group) : Option (List Entry) :=
  searchLoop title (dfsNode root.toNode) []

/-- The username line of `print_entry` (styling abstracted to plain text). -/
def userLine (u : String) : String := "  👤: " ++ u

/-- The password line of `print_entry`. -/
def passLine (p : String) : String := "  🔑: " ++ p

/-- The notes line of `print_entry`. -/
def notesLine (n : String) : String := "  📝: " ++ n

/-- The optional trailing notes line of `print_entry`: present exactly
when the entry has a "Notes" field of positive length. -/
def notesSuffix (e : Entry) : List String :=
  match e.get "Notes" with
  | some note => if note.length > 0 then [notesLine note] else []
  | none => []

/-- `print_entry` of `main.rs`: title, username and password lines in that
order (each obtained by `unwrap`, so a missing field panics — `none`),
then the notes line when the "Notes" field is present and non-empty. -/
def print_entry (e : Entry) : Option (List String) :=
  match e.get_title, e.get_username, e.get_password with
  | some t, some u, some p => some ([t, userLine u, passLine p] ++ notesSuffix e)
  | _, _, _ => none

/-- The count line printed by `main` in search mode. -/
def countLine (n : Nat) (title : String) : String :=
  "Found " ++ toString n ++ " result(s) for title name \"" ++ title ++ "\""

/-- The search-mode branch of `main`: on an empty result print
"No entries found", otherwise print the count line and then each matching
entry's formatted output followed by a blank line.  `none` models a panic
(missing title during search, or a missing required field while printing
a match). -/
def run_search_mode (title : String) (root : Group) : Option (List String) :=
  match search_entry_by_title title root with
  | none => none
  | some es =>
    if es.length == 0 then
      some ["No entries found"]
    else
      (es.mapM print_entry).map (fun fmts =>
        countLine es.length title :: (fmts.map (fun ls => ls ++ [""])).flatten)

/-! ### The navigation engine (`prompt` of `main.rs`) -/

/-- The `Context` struct of `main.rs`: one breadcrumb frame, holding the
group being displayed and the remembered cursor index. -/
structure Context where
  node : Group
  index : Nat

/-- The state of `prompt`: its `node` argument (the group whose children
are listed) together with the breadcrumb stack.  The stack is kept
top-first (`main.rs` uses a `Vec` with the top last; `promptPath` below
restores the root-to-top order of the joined names). -/
structure NavState where
  node : Group
  stack : List Context

/-- What the user does at one displayed prompt: pick the item at index
`i` (the `Some(selected)` arm) or cancel with ESC (the `None` arm). -/
inductive UserInput where
  | select (i : Nat)
  | cancel
deriving DecidableEq, Repr

/-- Observable output of one step: a formatted entry, the blank separator
line, or the final "END" marker. -/
inductive OutEvent where
  | entryLines (lines : List String)
  | blank
  | endMarker
deriving DecidableEq, Repr

/-- Result of one `prompt` iteration: recurse with a new state, halt (the
stack was emptied), or panic (a failed `unwrap` / out-of-bounds index). -/
inductive StepResult where
  | next (s : NavState) (out : List OutEvent)
  | halted (out : List OutEvent)
  | panicked

/-- The label of one child in the selectable list, per the `Display`
implementation of `Selection`: folder icon + group name, or key icon +
`e.get_title().unwrap()` (a missing title panics — `none`). -/
def selectionLabel : Node → Option String
  | Node.group n _ => some ("📁 " ++ n)
  | Node.entry e => (e.get_title).map (fun t => "🔑 " ++ t)

/-- The rendered selection list: the labels of all children, `none` if
rendering any label panics. -/
def renderSelections (cs : List Node) : Option (List String) :=
  cs.mapM selectionLabel

/-- The breadcrumb prompt string: the frame names joined by " > " in
root-to-top order (the stack is top-first, hence the reverse). -/
def promptPath (stack : List Context) : String :=
  String.intercalate " > " ((stack.map (fun c => c.node.name)).reverse)

/-- The hint shown when the stack has exactly one frame. -/
def exitHint : String := "(press ESC to exit)"

/-- The hint shown when the stack has more than one frame. -/
def backHint : String := "(press ESC to go back)"

/-- The hint appended to the prompt: `context.len() == 1` selects the
exit hint, anything else the go-back hint. -/
def hintOf (stack : List Context) : String :=
  if stack.length == 1 then exitHint else backHint

/-- The pre-selected index passed to the widget: the top frame's
remembered index, or 0 when the stack is empty (the `None` arm of
`context.last()`). -/
def defaultIndexOf (stack : List Context) : Nat :=
  match stack with
  | [] => 0
  | top :: _ => top.index

/-- Everything one displayed prompt shows: the item labels, the
breadcrumb path, the hint, and the default (pre-selected) index. -/
structure DisplayInfo where
  items : List String
  path : String
  hint : String
  defaultIndex : Nat
deriving DecidableEq, Repr

/-- The display step of `prompt`: `none` when rendering the selection
list panics (a child entry without a title). -/
def displayOf (s : NavState) : Option DisplayInfo :=
  (renderSelections s.node.children).map (fun items =>
    DisplayInfo.mk items (promptPath s.stack) (hintOf s.stack) (defaultIndexOf s.stack))

/-- Modelled from the spec: the external selection widget (dialoguer's
`Select`, not part of this repository's sources) presents the rendered
items and returns either the index of a displayed item or a cancellation;
it cannot return an index with no item under it. -/
def validInput (s : NavState) : UserInput → Prop
  | UserInput.select i => i < s.node.children.length
  | UserInput.cancel => True

/-- One iteration of `prompt`, given the user's action at the displayed
list.  Rendering the list happens before the interaction, so a child
entry without a title panics regardless of the input.  On selection of
index `i` the top frame's cursor becomes `i`; a selected group is pushed
as a fresh frame with cursor 0; a selected entry is printed (with a blank
separator) and the same frame is re-displayed.  On cancellation the top
frame is popped; an emptied stack prints the END marker and halts. -/
def navStep (s : NavState) (inp : UserInput) : StepResult :=
  match renderSelections s.node.children with
  | none => StepResult.panicked
  | some _ =>
    match inp with
    | UserInput.select i =>
      match s.stack with
      | [] => StepResult.panicked
      | top :: rest =>
        match s.node.children.get? i with
        | none => StepResult.panicked
        | some (Node.group n cs) =>
          StepResult.next
            (NavState.mk (Group.mk n cs)
              (Context.mk (Group.mk n cs) 0 :: Context.mk top.node i :: rest)) []
        | some (Node.entry e) =>
          match print_entry e with
          | none => StepResult.panicked
          | some lines =>
            StepResult.next (NavState.mk top.node (Context.mk top.node i :: rest))
              [OutEvent.entryLines lines, OutEvent.blank]
    | UserInput.cancel =>
      match s.stack with
      | [] => StepResult.halted [OutEvent.blank, OutEvent.endMarker]
      | _ :: rest =>
        match rest with
        | [] => StepResult.halted [OutEvent.blank, OutEvent.endMarker]
        | prev :: _ => StepResult.next (NavState.mk prev.node rest) []

/-- The stack after one step: `none` on panic, `[]` on halt. -/
def resultStack : StepResult → Option (List Context)
  | StepResult.next s _ => some s.stack
  | StepResult.halted _ => some []
  | StepResult.panicked => none

/-- Where a whole run ends up. -/
inductive RunOutcome where
  | running (s : NavState)
  | halted
  | panicked

/-- Run the navigation engine over a list of user actions, collecting the
outputs; a halt discards the unused actions. -/
def navRun (s : NavState) : List UserInput → RunOutcome × List OutEvent
  | [] => (RunOutcome.running s, [])
  | inp :: ins =>
    match navStep s inp with
    | StepResult.next s' out => ((navRun s' ins).1, out ++ (navRun s' ins).2)
    | StepResult.halted out => (RunOutcome.halted, out)
    | StepResult.panicked => (RunOutcome.panicked, [])

/-- The initial state built by `main`: the root frame with cursor 0, and
`prompt` called on the root group itself. -/
def initState (root : Group) : NavState :=
  NavState.mk root [Context.mk root 0]

/-- The invariant of every running state: the stack is non-empty and the
displayed group (`prompt`'s `node` argument) is the top frame's group. -/
def navInv (s : NavState) : Prop :=
  ∃ top rest, s.stack = top :: rest ∧ top.node = s.node

/-! ### The command line (`Args` and the `Database::open` call of `main`) -/

/-- The `Args` struct parsed by clap: database path, optional search
title, optional keyfile path, optional password. -/
structure Args where
  db : String
  entry_title : Option String
  keyfile : Option String
  password : Option String
deriving DecidableEq, Repr

/-- The arguments `main` hands to `Database::open` (after the file
handle): the optional password and the optional keyfile. -/
structure OpenCall where
  passwordArg : Option String
  keyfileArg : Option String
deriving DecidableEq, Repr

/-- The password `main` uses: the `--password` argument when given,
otherwise the interactively prompted one. -/
def resolvePassword (args : Args) (prompted : String) : String :=
  match args.password with
  | some p => p
  | none => prompted

/-- The `Database::open(&mut File::open(path)?, Some(&password), None)`
call of `main`: the password is always passed as `Some`, and the keyfile
argument is the literal `None`. -/
def openCallOf (args : Args) (prompted : String) : OpenCall :=
  OpenCall.mk (some (resolvePassword args prompted)) none

/-! ### Concrete example data used by witnesses and counterexamples -/

/-- An entry "a" with all required fields present. -/
def eA : Entry := Entry.mk [("Title", "a"), ("UserName", "ua"), ("Password", "pa")]

/-- An entry "b" with all required fields present. -/
def eB : Entry := Entry.mk [("Title", "b"), ("UserName", "ub"), ("Password", "pb")]

/-- A group "G" with two entry children. -/
def cG : Group := Group.mk "G" [Node.entry eA, Node.entry eB]

/-- A root "P" whose only child is the group "G". -/
def cP : Group := Group.mk "P" [Node.group "G" [Node.entry eA, Node.entry eB]]

/-- A root "Q" whose second child (index 1) is the group "G". -/
def cQ : Group := Group.mk "Q" [Node.entry eA, Node.group "G" [Node.entry eA, Node.entry eB]]

/-- A group with zero children. -/
def cE : Group := Group.mk "E" []

/-- An entry with a title, a password and non-empty notes but no
"UserName" field. -/
def eNoUser : Entry := Entry.mk [("Title", "t"), ("Password", "p"), ("Notes", "call back")]

/-- The scenario entry of the spec: title "Email", username "a@x.com",
password "p1", no notes. -/
def eEmail : Entry := Entry.mk [("Title", "Email"), ("UserName", "a@x.com"), ("Password", "p1")]

/-- An entry with all required fields and the notes "call back". -/
def eNotes : Entry :=
  Entry.mk [("Title", "t"), ("UserName", "u"), ("Password", "p"), ("Notes", "call back")]

/-- The scenario root of the spec, holding the "Email" entry. -/
def wRoot : Group := Group.mk "Database" [Node.entry eEmail]

/-! ### Helper lemmas -/

/-- Any state the step function continues into satisfies the navigation
invariant: non-empty stack whose top frame holds the displayed group. -/
theorem navStep_next_inv {s s' : NavState} {inp : UserInput} {out : List OutEvent}
    (h : navStep s inp = StepResult.next s' out) : navInv s' := by
  unfold navStep at h
  split at h
  · simp at h
  · split at h
    · split at h
      · simp at h
      · split at h
        · simp at h
        · injection h with h1 h2
          subst h1
          exact ⟨_, _, rfl, rfl⟩
        · split at h
          · simp at h
          · injection h with h1 h2
            subst h1
            exact ⟨_, _, rfl, rfl⟩
    · split at h
      · simp at h
      · split at h
        · simp at h
        · injection h with h1 h2
          subst h1
          exact ⟨_, _, rfl, rfl⟩

/-- The unfolding equation of `navRun` on a non-empty action list. -/
theorem navRun_cons (s : NavState) (inp : UserInput) (ins : List UserInput) :
    navRun s (inp :: ins)
      = match navStep s inp with
        | StepResult.next s' out => ((navRun s' ins).1, out ++ (navRun s' ins).2)
        | StepResult.halted out => (RunOutcome.halted, out)
        | StepResult.panicked => (RunOutcome.panicked, []) := rfl

/-- The navigation invariant holds at every state a run is still
displaying, provided it held at the start. -/
theorem navRun_running_inv :
    ∀ (ins : List UserInput) (s0 s : NavState) (o : List OutEvent),
      navInv s0 → navRun s0 ins = (RunOutcome.running s, o) → navInv s := by
  intro ins
  induction ins with
  | nil =>
    intro s0 s o h0 h
    simp [navRun] at h
    obtain ⟨h1, _⟩ := h
    exact h1 ▸ h0
  | cons inp ins ih =>
    intro s0 s o h0 h
    rw [navRun_cons] at h
    split at h
    · rename_i s1 out1 hstep
      have h1 : (navRun s1 ins).1 = RunOutcome.running s := congrArg Prod.fst h
      exact ih s1 s (navRun s1 ins).2 (navStep_next_inv hstep) (by rw [← h1])
    · simp at h
    · simp at h

/-- Cancelling at a displayed state pops exactly the top frame: the
remaining stack is the old one minus its head (and the run halts when
that remainder is empty). -/
theorem navStep_cancel_pops (s : NavState) (top : Context) (rest : List Context)
    (items : List String)
    (hr : renderSelections s.node.children = some items)
    (hstack : s.stack = top :: rest) :
    resultStack (navStep s UserInput.cancel) = some rest := by
  unfold navStep
  rw [hr, hstack]
  cases rest with
  | nil => rfl
  | cons prev rest' => rfl

/-! ### Claim theorems -/

/-- C3: starting the navigation engine at the root of any tree and
repeatedly cancelling (never selecting) terminates after exactly
depth+1 = 0+1 = 1 cancellation — never selecting means the deepest frame
ever pushed is the root frame itself, at depth 0 — reaching the terminal
state (END marker, empty stack, since the single frame was popped), while
0 cancellations leave the engine running; and, in general, each
cancellation pops exactly one frame off the breadcrumb stack. -/
theorem c3_cancel_termination (root : Group)
    (hroot : (renderSelections root.children).isSome = true)
    (s : NavState) (top : Context) (rest : List Context)
    (hstack : s.stack = top :: rest)
    (hs : (renderSelections s.node.children).isSome = true) :
    navRun (initState root) [UserInput.cancel]
      = (RunOutcome.halted, [OutEvent.blank, OutEvent.endMarker])
    ∧ navRun (initState root) [] = (RunOutcome.running (initState root), [])
    ∧ resultStack (navStep s UserInput.cancel) = some rest := by
  obtain ⟨items, hr⟩ := Option.isSome_iff_exists.mp hroot
  obtain ⟨items2, hr2⟩ := Option.isSome_iff_exists.mp hs
  refine ⟨?_, rfl, navStep_cancel_pops s top rest items2 hr2 hstack⟩
  rw [navRun_cons]
  have hr' : renderSelections (initState root).node.children = some items := hr
  have hst : navStep (initState root) UserInput.cancel
      = StepResult.halted [OutEvent.blank, OutEvent.endMarker] := by
    unfold navStep
    rw [hr']
    rfl
  rw [hst]

/-- Witness for C3 at the concrete tree `cP` and a concrete two-frame
state: cancelling once from the root exits with the END marker, and a
cancel at the deeper state pops exactly its top frame. -/
theorem c3_cancel_termination_witness :
    navRun (initState cP) [UserInput.cancel]
      = (RunOutcome.halted, [OutEvent.blank, OutEvent.endMarker])
    ∧ navRun (initState cP) [] = (RunOutcome.running (initState cP), [])
    ∧ resultStack
        (navStep (NavState.mk cG [Context.mk cG 1, Context.mk cP 0]) UserInput.cancel)
      = some [Context.mk cP 0] :=
  c3_cancel_termination cP (by rfl) (NavState.mk cG [Context.mk cG 1, Context.mk cP 0])
    (Context.mk cG 1) [Context.mk cP 0] rfl (by rfl)

/-- C4: in every state the interactive loop displays, the breadcrumb
stack is non-empty, the displayed group is the top frame's group, the
prompt path is the frame names joined root-to-top by " > ", and the
appended hint is the exit hint exactly at depth 1 and the go-back hint
exactly at depth greater than 1. -/
theorem c4_breadcrumb (root : Group) (ins : List UserInput) (s : NavState)
    (o : List OutEvent)
    (h : navRun (initState root) ins = (RunOutcome.running s, o)) :
    (∃ top rest, s.stack = top :: rest ∧ top.node = s.node)
    ∧ promptPath s.stack
        = String.intercalate " > " ((s.stack.map (fun c => c.node.name)).reverse)
    ∧ (hintOf s.stack = exitHint ↔ s.stack.length = 1)
    ∧ (hintOf s.stack = backHint ↔ 1 < s.stack.length) := by
  have hinv : navInv s := navRun_running_inv ins (initState root) s o ⟨_, _, rfl, rfl⟩ h
  have hlen : 1 ≤ s.stack.length := by
    obtain ⟨top, rest, hs, _⟩ := hinv
    rw [hs]
    simp
  have hde : exitHint ≠ backHint := by decide
  refine ⟨hinv, rfl, ?_, ?_⟩
  · constructor
    · intro hh
      by_contra h1
      have hx : hintOf s.stack = backHint := by
        unfold hintOf
        rw [if_neg]
        simpa using h1
      rw [hh] at hx
      exact hde hx
    · intro h1
      unfold hintOf
      rw [if_pos]
      simpa using h1
  · constructor
    · intro hh
      by_contra h1
      have h2 : s.stack.length = 1 := by omega
      have hx : hintOf s.stack = exitHint := by
        unfold hintOf
        rw [if_pos]
        simpa using h2
      rw [hh] at hx
      exact hde hx.symm
    · intro h1
      have h2 : ¬s.stack.length = 1 := by omega
      unfold hintOf
      rw [if_neg]
      simpa using h2

/-- Witness for C4 at the concrete tree `cP` and the empty action list
(the initial displayed state, depth 1): the hint is the exit hint. -/
theorem c4_breadcrumb_witness :
    (hintOf (initState cP).stack = exitHint ↔ (initState cP).stack.length = 1)
    ∧ promptPath (initState cP).stack
        = String.intercalate " > " (((initState cP).stack.map (fun c => c.node.name)).reverse) :=
  ⟨(c4_breadcrumb cP [] (initState cP) [] rfl).2.2.1,
   (c4_breadcrumb cP [] (initState cP) [] rfl).2.1⟩

/-- C5: selecting an entry child at index `i` is a stack-preserving
transition — the formatter's lines and the blank separator are emitted,
the stack keeps the same frames with only the top cursor set to `i`, and
the engine continues displaying the same top frame's group. -/
theorem c5_entry_selection (s : NavState) (top : Context) (rest : List Context)
    (i : Nat) (e : Entry) (lines : List String)
    (hstack : s.stack = top :: rest)
    (hchild : s.node.children.get? i = some (Node.entry e))
    (hrender : (renderSelections s.node.children).isSome = true)
    (hfmt : print_entry e = some lines) :
    navStep s (UserInput.select i)
      = StepResult.next (NavState.mk top.node (Context.mk top.node i :: rest))
          [OutEvent.entryLines lines, OutEvent.blank] := by
  obtain ⟨items, hr⟩ := Option.isSome_iff_exists.mp hrender
  unfold navStep
  rw [hr, hstack]
  dsimp only
  rw [hchild]
  dsimp only
  rw [hfmt]

/-- Witness for C5: selecting the entry `eB` at index 1 while displaying
`cG` over the root frame prints it and keeps the same frame with its
cursor moved to 1. -/
theorem c5_entry_selection_witness :
    navStep (NavState.mk cG [Context.mk cG 0, Context.mk cP 0]) (UserInput.select 1)
      = StepResult.next
          (NavState.mk (Context.mk cG 0).node
            (Context.mk (Context.mk cG 0).node 1 :: [Context.mk cP 0]))
          [OutEvent.entryLines ["b", userLine "ub", passLine "pb"], OutEvent.blank] :=
  c5_entry_selection (NavState.mk cG [Context.mk cG 0, Context.mk cP 0])
    (Context.mk cG 0) [Context.mk cP 0] 1 eB ["b", userLine "ub", passLine "pb"]
    rfl rfl (by rfl) (by rfl)

/-- C6: a group with zero children still renders — an empty selectable
list with the usual path, hint and default index — the only input the
selection widget can produce there besides cancellation is nothing at
all, and cancelling pops exactly the top frame. -/
theorem c6_empty_group (s : NavState) (top : Context) (rest : List Context)
    (hstack : s.stack = top :: rest) (hempty : s.node.children = []) :
    displayOf s
      = some (DisplayInfo.mk [] (promptPath s.stack) (hintOf s.stack)
          (defaultIndexOf s.stack))
    ∧ (∀ inp, validInput s inp → inp = UserInput.cancel)
    ∧ resultStack (navStep s UserInput.cancel) = some rest := by
  refine ⟨?_, ?_, ?_⟩
  · unfold displayOf renderSelections
    rw [hempty]
    rfl
  · intro inp hv
    cases inp with
    | select i =>
      exfalso
      unfold validInput at hv
      rw [hempty] at hv
      exact absurd hv (by simp)
    | cancel => rfl
  · refine navStep_cancel_pops s top rest [] ?_ hstack
    unfold renderSelections
    rw [hempty]
    rfl

/-- Witness for C6 at the empty group `cE` displayed above the root
frame of `cP`: it renders an empty list and cancelling pops its frame. -/
theorem c6_empty_group_witness :
    displayOf (NavState.mk cE [Context.mk cE 0, Context.mk cP 0])
      = some (DisplayInfo.mk []
          (promptPath (NavState.mk cE [Context.mk cE 0, Context.mk cP 0]).stack)
          (hintOf (NavState.mk cE [Context.mk cE 0, Context.mk cP 0]).stack)
          (defaultIndexOf (NavState.mk cE [Context.mk cE 0, Context.mk cP 0]).stack))
    ∧ resultStack
        (navStep (NavState.mk cE [Context.mk cE 0, Context.mk cP 0]) UserInput.cancel)
      = some [Context.mk cP 0] :=
  ⟨(c6_empty_group (NavState.mk cE [Context.mk cE 0, Context.mk cP 0])
      (Context.mk cE 0) [Context.mk cP 0] rfl rfl).1,
   (c6_empty_group (NavState.mk cE [Context.mk cE 0, Context.mk cP 0])
      (Context.mk cE 0) [Context.mk cP 0] rfl rfl).2.2⟩

/-- C1 as stated is false: in the tree `cP` (root "P" containing group
"G" with two entries) the user descends into G, selects index 1 while the
top frame displays G (an entry, so the frame's cursor becomes 1), ascends
(cancels) out of G back to P, then descends into G again — G's children
never changed, yet the re-displayed default selection index is 0, not 1,
because descending pushes a fresh frame with cursor 0. -/
theorem c1_counterexample :
    (navRun (initState cP) [UserInput.select 0, UserInput.select 1, UserInput.cancel,
        UserInput.select 0]).1
      = RunOutcome.running (NavState.mk cG [Context.mk cG 0, Context.mk cP 0])
    ∧ (displayOf (NavState.mk cG [Context.mk cG 0, Context.mk cP 0])).map
        (fun d => d.defaultIndex) = some 0 :=
  ⟨by rfl, by rfl⟩

/-- C1 amended: cursor memory works across a descent-and-return, not
across an ascent-and-re-descent — if the user selects index `i` while the
top frame displays group G (here: descending into the child group at
`i`), then cancels out of that child back to G, the re-displayed
selection list for G has default selection index `i` rather than 0;
re-descending into G after ascending out of it starts at cursor 0. -/
theorem c1_cursor_memory_amended (s : NavState) (top : Context) (rest : List Context)
    (i : Nat) (n : String) (cs : List Node)
    (hstack : s.stack = top :: rest) (hnode : s.node = top.node)
    (hchild : s.node.children.get? i = some (Node.group n cs))
    (hr1 : (renderSelections s.node.children).isSome = true)
    (hr2 : (renderSelections cs).isSome = true) :
    navRun s [UserInput.select i, UserInput.cancel]
      = (RunOutcome.running (NavState.mk top.node (Context.mk top.node i :: rest)), [])
    ∧ (displayOf (NavState.mk top.node (Context.mk top.node i :: rest))).map
        (fun d => d.defaultIndex) = some i := by
  obtain ⟨it1, hra⟩ := Option.isSome_iff_exists.mp hr1
  obtain ⟨it2, hrb⟩ := Option.isSome_iff_exists.mp hr2
  have h1 : navStep s (UserInput.select i)
      = StepResult.next (NavState.mk (Group.mk n cs)
          (Context.mk (Group.mk n cs) 0 :: Context.mk top.node i :: rest)) [] := by
    unfold navStep
    rw [hra, hstack]
    try dsimp only
    rw [hchild]
  have h2 : navStep (NavState.mk (Group.mk n cs)
        (Context.mk (Group.mk n cs) 0 :: Context.mk top.node i :: rest)) UserInput.cancel
      = StepResult.next (NavState.mk top.node (Context.mk top.node i :: rest)) [] := by
    unfold navStep
    rw [hrb]
  constructor
  · rw [navRun_cons, h1]
    dsimp only
    rw [navRun_cons, h2]
    rfl
  · unfold displayOf
    dsimp only
    rw [← hnode, hra]
    rfl

/-- Witness for the amended C1 at the tree `cQ`: selecting the group at
index 1 and cancelling out of it re-displays the root with default 1. -/
theorem c1_cursor_memory_amended_witness :
    navRun (initState cQ) [UserInput.select 1, UserInput.cancel]
      = (RunOutcome.running (NavState.mk cQ [Context.mk cQ 1]), [])
    ∧ (displayOf (NavState.mk cQ [Context.mk cQ 1])).map (fun d => d.defaultIndex)
        = some 1 :=
  c1_cursor_memory_amended (initState cQ) (Context.mk cQ 0) [] 1 "G"
    [Node.entry eA, Node.entry eB] rfl rfl rfl (by rfl) (by rfl)

/-- The collecting loop of the search: when every entry of the remaining
node list has a title, the loop succeeds and extends the accumulator, in
list order, with exactly the entries whose title equals the searched
title. -/
theorem searchLoop_titled (title : String) :
    ∀ (ns : List Node) (acc : List Entry),
      (∀ e, Node.entry e ∈ ns → e.get_title ≠ none) →
      searchLoop title ns acc
        = some (acc ++ (ns.filterMap (fun n =>
            match n with
            | Node.entry e => some e
            | Node.group _ _ => none)).filter (fun e => e.get_title == some title)) := by
  intro ns
  induction ns with
  | nil =>
    intro acc h
    simp [searchLoop]
  | cons n ns ih =>
    intro acc h
    cases n with
    | group m cs =>
      simp only [searchLoop]
      rw [ih acc (fun e he => h e (List.mem_cons_of_mem _ he))]
      simp [List.filterMap_cons]
    | entry e =>
      cases ht : e.get_title with
      | none => exact absurd ht (h e (List.mem_cons_self _ _))
      | some t =>
        have hbeq : ∀ (a b : String), ((some a == some b) = (a == b)) := fun a b => rfl
        simp only [searchLoop]
        rw [ht]
        dsimp only
        rw [ih _ (fun e' he' => h e' (List.mem_cons_of_mem _ he'))]
        simp only [List.filterMap_cons]
        simp only [List.filter_cons, ht, hbeq]
        cases htt : (t == title) with
        | true => simp [htt]
        | false => simp [htt]

/-- C2: provided every reachable entry has a title field (per section 4.1
of the spec a missing title is fatal for the lookup), the search returns
exactly the reachable entries whose title equals the searched title
(case-sensitively, via string equality), in depth-first child-order
traversal order, and an empty sequence — not an error — when none match. -/
theorem c2_search_by_title (title : String) (root : Group)
    (h : ∀ e ∈ entriesOf root, e.get_title ≠ none) :
    search_entry_by_title title root
      = some ((entriesOf root).filter (fun e => e.get_title == some title))
    ∧ ((∀ e ∈ entriesOf root, (e.get_title == some title) = false) →
        search_entry_by_title title root = some []) := by
  have hp : ∀ e, Node.entry e ∈ dfsNode root.toNode → e.get_title ≠ none := by
    intro e he
    exact h e (List.mem_filterMap.mpr ⟨Node.entry e, he, rfl⟩)
  have hmain : search_entry_by_title title root
      = some ((entriesOf root).filter (fun e => e.get_title == some title)) := by
    unfold search_entry_by_title
    rw [searchLoop_titled title (dfsNode root.toNode) [] hp]
    rw [List.nil_append]
    rfl
  refine ⟨hmain, fun hnone => ?_⟩
  rw [hmain]
  have hf : (entriesOf root).filter (fun e => e.get_title == some title) = [] := by
    rw [List.filter_eq_nil_iff]
    intro a ha
    rw [hnone a ha]
    simp
  rw [hf]

/-- Witness for C2 at the tree `cP` and the title "a". -/
theorem c2_search_by_title_witness :
    search_entry_by_title "a" cP
      = some ((entriesOf cP).filter (fun e => e.get_title == some "a")) :=
  (c2_search_by_title "a" cP (by decide)).1

/-- C7 as stated is false: the entry `eNoUser` has no username field, yet
rendering it in the selection list succeeds (only the title is read
there) and matching it during search succeeds (again only the title is
read) — neither operation is a fatal error for a missing username. -/
theorem c7_counterexample :
    eNoUser.get_username = none
    ∧ selectionLabel (Node.entry eNoUser) = some "🔑 t"
    ∧ search_entry_by_title "t" (Group.mk "g" [Node.entry eNoUser]) = some [eNoUser] :=
  ⟨rfl, rfl, rfl⟩

/-- C7 amended: each operation is fatal exactly on the fields it reads —
`print_entry` fails precisely when title, username or password is absent,
while the selection-list label and the search fail precisely when the
title is absent (a missing username or password does not affect them). -/
theorem c7_missing_fields_amended (e : Entry) (n title : String) :
    (print_entry e = none
      ↔ (e.get_title = none ∨ e.get_username = none ∨ e.get_password = none))
    ∧ (selectionLabel (Node.entry e) = none ↔ e.get_title = none)
    ∧ (search_entry_by_title title (Group.mk n [Node.entry e]) = none
        ↔ e.get_title = none) := by
  refine ⟨?_, ?_, ?_⟩
  · cases ht : e.get_title with
    | none => simp [print_entry, ht]
    | some t =>
      cases hu : e.get_username with
      | none => simp [print_entry, ht, hu]
      | some u =>
        cases hp : e.get_password with
        | none => simp [print_entry, ht, hu, hp]
        | some p => simp [print_entry, ht, hu, hp]
  · cases ht : e.get_title with
    | none => simp [selectionLabel, ht]
    | some t => simp [selectionLabel, ht]
  · cases ht : e.get_title with
    | none => simp [search_entry_by_title, Group.toNode, dfsNode, dfsList, searchLoop, ht]
    | some t => simp [search_entry_by_title, Group.toNode, dfsNode, dfsList, searchLoop, ht]

/-- C8: for an entry whose required fields are present, `print_entry`
prints the title, username and password lines in that fixed order and
then the notes suffix, which is the single notes line exactly when the
"Notes" field is present and non-empty and is empty when the field is
absent or the empty string. -/
theorem c8_print_entry (e : Entry) (t u p : String)
    (ht : e.get_title = some t) (hu : e.get_username = some u)
    (hp : e.get_password = some p) :
    print_entry e = some ([t, userLine u, passLine p] ++ notesSuffix e)
    ∧ (∀ note, e.get "Notes" = some note → 0 < note.length →
        notesSuffix e = [notesLine note])
    ∧ (e.get "Notes" = none → notesSuffix e = [])
    ∧ (∀ note, e.get "Notes" = some note → note.length = 0 → notesSuffix e = []) := by
  refine ⟨?_, ?_, ?_, ?_⟩
  · simp [print_entry, ht, hu, hp]
  · intro note hn hlen
    simp [notesSuffix, hn, hlen]
  · intro hn
    simp [notesSuffix, hn]
  · intro note hn hlen
    simp [notesSuffix, hn, hlen]

/-- Witness for C8 at the entry `eNotes`, whose notes field is the
non-empty string "call back": the fixed three lines are printed and the
notes suffix is the notes line. -/
theorem c8_print_entry_witness :
    print_entry eNotes = some (["t", userLine "u", passLine "p"] ++ notesSuffix eNotes)
    ∧ notesSuffix eNotes = [notesLine "call back"] :=
  ⟨(c8_print_entry eNotes "t" "u" "p" rfl rfl rfl).1,
   (c8_print_entry eNotes "t" "u" "p" rfl rfl rfl).2.1 "call back" rfl (by decide)⟩

/-- C9: the search mode prints exactly "No entries found" when the search
returns an empty sequence (a normal outcome, not an error), and when the
search returns a non-empty sequence whose entries all format, it prints
the count line naming the number of hits and the searched title followed
by each matching entry's formatted output (each with a trailing blank
line). -/
theorem c9_search_mode (title : String) (root : Group) :
    (search_entry_by_title title root = some [] →
      run_search_mode title root = some ["No entries found"])
    ∧ (∀ es fmts, search_entry_by_title title root = some es → es ≠ [] →
        es.mapM print_entry = some fmts →
        run_search_mode title root
          = some (countLine es.length title
              :: (fmts.map (fun ls => ls ++ [""])).flatten)) := by
  constructor
  · intro h
    unfold run_search_mode
    rw [h]
    rfl
  · intro es fmts h hne hm
    have hc : ¬(es.length == 0) = true := by
      cases es with
      | nil => exact absurd rfl hne
      | cons a l => simp
    unfold run_search_mode
    rw [h]
    dsimp only
    rw [if_neg hc, hm]
    rfl

/-- Witness for C9 on the scenario tree `wRoot`: searching "Nope" prints
the no-entries message, searching "Email" prints the count line and the
formatted entry. -/
theorem c9_search_mode_witness :
    run_search_mode "Nope" wRoot = some ["No entries found"]
    ∧ run_search_mode "Email" wRoot
        = some (countLine ([eEmail].length) "Email"
            :: (([["Email", userLine "a@x.com", passLine "p1"]]).map
                (fun ls => ls ++ [""])).flatten) :=
  ⟨(c9_search_mode "Nope" wRoot).1 rfl,
   (c9_search_mode "Email" wRoot).2 [eEmail] [["Email", userLine "a@x.com", passLine "p1"]]
     rfl (by simp) rfl⟩

/-- C10: the keyfile argument `main` passes to the database open call is
the literal `None`, whatever the command line said, so supplying
`-k`/`--keyfile` (a field clap does accept) cannot influence how the
database is opened. -/
theorem c10_keyfile_unused (args : Args) (prompted : String) (k : Option String) :
    (openCallOf args prompted).keyfileArg = none
    ∧ openCallOf (Args.mk args.db args.entry_title k args.password) prompted
        = openCallOf args prompted :=
  ⟨rfl, rfl⟩

end KpCli
